import Mathlib

/-!
# Verification of the MCR4 TMODs progress tracker derivation logic

Shallow embedding of the completion-derivation core of `src/src/App.jsx`:
the step-completion calculator, the drawing-status aggregation, the
cross-scope Lead-Abatement linker, the mutation write paths (prerequisite
save, action save, abatement toggle, action add/delete), the default-data
seeding, and the summary-page aggregation.  Numeric JS values are embedded
as exact integers/rationals (`ℤ`, `ℚ`); `Math.round` is embedded as
`⌊q + 1/2⌋`, which is its exact semantics on real numbers; JS `NaN`
results (division 0/0) are embedded as `Option.none`; object fields that
the code reads optionally are embedded as `Option`.
-/

namespace TMods

/-- A checklist step: `{ id, description, isComplete }`. -/
structure Step where
  id : Nat
  description : String
  isComplete : Bool
deriving Repr, DecidableEq

/-- An action: `{ id, description, percentComplete, notes, steps, imageAttachment, lastUpdated }`.
`imageAttachment` keeps only the metadata name (`{ name }`), `lastUpdated`
is an abstract timestamp. -/
structure Action where
  id : Nat
  description : String
  percentComplete : Int
  notes : String
  steps : List Step
  imageAttachment : Option String
  lastUpdated : Option Nat
deriving Repr, DecidableEq

/-- A drawing ("part"): `{ id, name, description, imageUrl, relatedScopeId, actions }`. -/
structure Drawing where
  id : Nat
  name : String
  description : String
  imageUrl : String
  relatedScopeId : Option String
  actions : List Action
deriving Repr, DecidableEq

/-- A prerequisite entry: `{ status, notes, steps }` plus the `lastUpdated`
stamp written by the prerequisite modal. -/
structure Prereq where
  status : String
  notes : String
  steps : List Step
  lastUpdated : Option Nat
deriving Repr, DecidableEq

/-- The fixed three-key prerequisite object `{ materials, leadAbatement, generalPrereqs }`. -/
structure Prereqs where
  materials : Prereq
  leadAbatement : Prereq
  generalPrereqs : Prereq
deriving Repr, DecidableEq

/-- A scope document: `{ id, title, prereqs, drawings }`.  `drawings` is
optional so that a snapshot whose scope document lacks the field can be
represented (the linker guards on it with `!abatementScope.drawings`). -/
structure ScopeDoc where
  id : String
  title : String
  prereqs : Prereqs
  drawings : Option (List Drawing)
deriving Repr, DecidableEq

/-- The three fixed prerequisite object keys. -/
inductive PrereqKey where
  | materials
  | leadAbatement
  | generalPrereqs
deriving Repr, DecidableEq

/-- `isStepPrereq(key)`: `key === 'materials' || key === 'generalPrereqs'`. -/
def isStepPrereq (key : PrereqKey) : Bool :=
  key = PrereqKey.materials || key = PrereqKey.generalPrereqs

/-- Field read `prereqData[key]` on the fixed three-key object. -/
def getPrereq (p : Prereqs) : PrereqKey → Prereq
  | PrereqKey.materials => p.materials
  | PrereqKey.leadAbatement => p.leadAbatement
  | PrereqKey.generalPrereqs => p.generalPrereqs

/-- Field write `{ ...prereqData, [key]: v }` on the fixed three-key object. -/
def setPrereq (p : Prereqs) (key : PrereqKey) (v : Prereq) : Prereqs :=
  match key with
  | PrereqKey.materials => { p with materials := v }
  | PrereqKey.leadAbatement => { p with leadAbatement := v }
  | PrereqKey.generalPrereqs => { p with generalPrereqs := v }

/-- JavaScript `Math.round (num / den)` in exact arithmetic, for a
nonnegative fraction `num / den` with `0 < den`: round to nearest, ties
toward `+∞`, i.e. `⌊num/den + 1/2⌋`, which for naturals equals the
integer division `(2*num + den) / (2*den)`.  The lemma `mathRound_eq_round`
below certifies this embedding against Mathlib's `round`. -/
def mathRound (num den : Nat) : Int := ((2 * num + den) / (2 * den) : Nat)

/-- `calculatePercentFromSteps(steps)` (App.jsx lines 61-68):
`0` for a null or empty list, otherwise
`Math.round((completedSteps / totalSteps) * 100)`, embedded as the exact
rounding of the rational `completedSteps * 100 / totalSteps`. -/
def calculatePercentFromSteps (steps : Option (List Step)) : Int :=
  match steps with
  | none => 0
  | some s =>
    if s.length = 0 then 0
    else
      let completedSteps := (s.filter (fun st => st.isComplete)).length
      let totalSteps := s.length
      if totalSteps > 0 then mathRound (completedSteps * 100) totalSteps
      else 0

/-- The scope-id slug `title.toLowerCase().replace(/[^a-z0-9]+/g, '_')`:
character predicate for the characters kept by the regex after lowercasing. -/
def isSlugChar (c : Char) : Bool := c.isLower || c.isDigit

/-- Replace every maximal run of non-alphanumeric characters with a single
underscore, as the global regex replace `/[^a-z0-9]+/g → '_'` does.  The
Boolean argument records whether the previous character was part of a
non-alphanumeric run (so the run only emits one `'_'`). -/
def slugifyAux : List Char → Bool → List Char
  | [], _ => []
  | c :: rest, inRun =>
    if isSlugChar c then c :: slugifyAux rest false
    else if inRun then slugifyAux rest true
    else '_' :: slugifyAux rest true

/-- `title.toLowerCase().replace(/[^a-z0-9]+/g, '_')`. -/
def jsSlugify (s : String) : String :=
  ⟨slugifyAux (s.toList.map Char.toLower) false⟩

/-- `LEAD_ABATEMENT_ID = 'lead_abatement'`. -/
def LEAD_ABATEMENT_ID : String := "lead_abatement"

/-- The fixed `SCOPE_NAMES` catalog. -/
def SCOPE_NAMES : List String :=
  [ "Lead Abatement"
  , "4113a Civil Mod Interferences"
  , "4113b FIF and Monorail"
  , "4113c Feeder Lifting Frame"
  , "4115a MET Civil"
  , "4115b MET Mechanical"
  , "Helium Supply Line removal"
  , "4219 Header restraints Install" ]

/-- `getDrawingStatus(actions)` (App.jsx lines 76-98).  `totalPercent` and
`validActions` accumulate over every action exactly as the `forEach` does
(`validActions` ends up as `actions.length`).  The comparisons on
`overallAverage = totalPercent / validActions` are embedded in
cross-multiplied exact form, valid because `validActions > 0` on that
branch: `overallAverage === 100 ↔ totalPercent = 100 * validActions`,
`overallAverage === 0 ↔ totalPercent = 0`, and
`0 < overallAverage < 100 ↔ 0 < totalPercent ∧ totalPercent < 100 * validActions`. -/
def getDrawingStatus (actions : List Action) : String :=
  if actions.length = 0 then "red"
  else
    let totalPercent := (actions.map (fun a => calculatePercentFromSteps (some a.steps))).sum
    let validActions := (actions.length : Int)
    if validActions = 0 then "red"
    else
      if totalPercent = 100 * validActions then "green"
      else if totalPercent = 0 then "red"
      else if 0 < totalPercent ∧ totalPercent < 100 * validActions then "yellow"
      else "red"

/-- The record returned by `getLeadAbatementProgressForScope`. -/
structure AbatementProgress where
  percent : Int
  totalSteps : Nat
  completedSteps : Nat
  linkedItemsCount : Nat
deriving Repr, DecidableEq

/-- The scope store snapshot: Firestore document id → scope document,
in snapshot order. -/
def Store : Type := List (String × ScopeDoc)

/-- Property read `allScopes[id]`. -/
def lookupScope (allScopes : Store) (id : String) : Option ScopeDoc :=
  (List.find? (fun p => p.1 == id) allScopes).map Prod.snd

/-- `getLeadAbatementProgressForScope(allScopes, targetScopeId)`
(App.jsx lines 116-146). -/
def getLeadAbatementProgressForScope (allScopes : Store) (targetScopeId : String) :
    AbatementProgress :=
  match lookupScope allScopes LEAD_ABATEMENT_ID with
  | none => ⟨0, 0, 0, 0⟩
  | some abatementScope =>
    match abatementScope.drawings with
    | none => ⟨0, 0, 0, 0⟩
    | some ds =>
      let relevantDrawings := ds.filter (fun d => d.relatedScopeId == some targetScopeId)
      if relevantDrawings.length = 0 then ⟨0, 0, 0, 0⟩
      else
        let totalSteps :=
          (relevantDrawings.map (fun d => (d.actions.map (fun a => a.steps.length)).sum)).sum
        let completedSteps :=
          (relevantDrawings.map (fun d =>
            (d.actions.map (fun a => (a.steps.filter (fun s => s.isComplete)).length)).sum)).sum
        let percent := if totalSteps > 0 then mathRound (completedSteps * 100) totalSteps else 0
        ⟨percent, totalSteps, completedSteps, relevantDrawings.length⟩

/-- The status chain shared by `PrereqModal.handleSave` (App.jsx lines
355-357) and the linked branch of `getDisplayStatus` (lines 796-799):
`percent === 100 → 'Complete'`, `percent > 0 → 'In Progress'`,
otherwise `'Not Started'`. -/
def percentStatus (percent : Int) : String :=
  if percent = 100 then "Complete"
  else if percent > 0 then "In Progress"
  else "Not Started"

/-- `getDisplayStatus(key)` from `PrereqSection` (App.jsx lines 788-803);
`scope` and `allScopes` are the component's props. -/
def getDisplayStatus (allScopes : Store) (scope : ScopeDoc) (key : PrereqKey) : String :=
  if key = PrereqKey.leadAbatement ∧ scope.id ≠ LEAD_ABATEMENT_ID then
    let r := getLeadAbatementProgressForScope allScopes scope.id
    if r.linkedItemsCount = 0 then "N/A"
    else percentStatus r.percent
  else (getPrereq scope.prereqs key).status

/-- `PrereqModal.handleSave` (App.jsx lines 350-369): recompute the derived
`status` for step-tracked prerequisites and write the whole scope document.
`now` stands for `new Date()`. -/
def handleSavePrereq (prereqKey : PrereqKey) (currentPrereq : Prereq) (scope : ScopeDoc)
    (now : Nat) : ScopeDoc :=
  let updatedStatus :=
    if isStepPrereq prereqKey then
      percentStatus (calculatePercentFromSteps (some currentPrereq.steps))
    else currentPrereq.status
  let updatedPrereq := { currentPrereq with status := updatedStatus, lastUpdated := some now }
  { scope with prereqs := setPrereq scope.prereqs prereqKey updatedPrereq }

/-- `ActionModal.handleSave` (App.jsx lines 503-530): persist the edited
action with its recomputed `percentComplete` and the metadata-only image
attachment, mapped into the scope's drawings; `none` models the crash a
missing `drawings` field would cause. `actionId` is `action.id`,
`currentAction` is the modal's edited action state, `tempImage` the
session image's name. -/
def handleSaveAction (scope : ScopeDoc) (drawingId actionId : Nat) (currentAction : Action)
    (tempImage : Option String) (now : Nat) : Option ScopeDoc :=
  match scope.drawings with
  | none => none
  | some ds =>
    let attachmentToPersist : Option String :=
      match tempImage with
      | some name => some name
      | none => none
    let updatedAction :=
      { currentAction with
          percentComplete := calculatePercentFromSteps (some currentAction.steps)
        , imageAttachment := attachmentToPersist
        , lastUpdated := some now }
    some { scope with drawings := some (ds.map (fun d =>
      if d.id = drawingId then
        { d with actions := d.actions.map (fun a =>
            if a.id = actionId then updatedAction else a) }
      else d)) }

/-- `steps.map((step, index) => index === 0 ? { ...step, isComplete: !step.isComplete } : step)`:
only the entry at index 0 has its `isComplete` flipped. -/
def toggleFirstStep : List Step → List Step
  | [] => []
  | s :: rest => { s with isComplete := !s.isComplete } :: rest

/-- `toggleAbatementAction(actionId)` from `ActionList` (App.jsx lines
963-987): flip the completion of the first step of the matching action and
stamp `lastUpdated`, then write the whole scope document.  `none` models
the crash a missing `drawings` field would cause. -/
def toggleAbatementAction (scope : ScopeDoc) (drawingId actionId : Nat) (now : Nat) :
    Option ScopeDoc :=
  match scope.drawings with
  | none => none
  | some ds =>
    some { scope with drawings := some (ds.map (fun d =>
      if d.id = drawingId then
        { d with actions := d.actions.map (fun a =>
            if a.id = actionId then
              { a with steps := toggleFirstStep a.steps, lastUpdated := some now }
            else a) }
      else d)) }

/-- `addAction` from `ActionList` (App.jsx lines 924-947): append a fresh
single-step action to the matching drawing and write the scope document.
`u` stands for the fresh `crypto.randomUUID()` values. -/
def addAction (scope : ScopeDoc) (drawingId : Nat) (description : String) (isAbatement : Bool)
    (u now : Nat) : Option ScopeDoc :=
  match scope.drawings with
  | none => none
  | some ds =>
    let newAction : Action :=
      { id := u
      , description := description
      , percentComplete := 0
      , notes := ""
      , steps := [⟨u + 1,
          if isAbatement then "Abatement Action Complete?" else "Define the scope and steps",
          false⟩]
      , imageAttachment := none
      , lastUpdated := some now }
    some { scope with drawings := some (ds.map (fun d =>
      if d.id = drawingId then { d with actions := d.actions ++ [newAction] } else d)) }

/-- Helper for `jsIncludes`: does `needle` occur as a contiguous
subsequence of the character list? -/
def containsSeq (needle : List Char) : List Char → Bool
  | [] => needle.isEmpty
  | c :: rest => needle.isPrefixOf (c :: rest) || containsSeq needle rest

/-- JavaScript `hay.includes(needle)`. -/
def jsIncludes (hay needle : String) : Bool := containsSeq needle.toList hay.toList

/-- `createDefaultScopeData(title)` (App.jsx lines 152-206).  `randPart`
stands for `Math.floor(Math.random() * 900) + 100` (embedded as
`randPart % 900 + 100`) and `u` seeds the `crypto.randomUUID()` values,
assigned consecutively. -/
def createDefaultScopeData (title : String) (randPart u : Nat) : ScopeDoc :=
  let scopeId := jsSlugify title
  let defaultDrawingName := title.take 4 ++ "-PART-" ++ toString (randPart % 900 + 100)
  let titleHasLead := jsIncludes title "Lead"
  { id := scopeId
  , title := title
  , prereqs :=
    { materials :=
        { status := "Not Started"
        , notes := "Initial material requisition and long-lead item tracking."
        , steps :=
            [ ⟨u, "Issue Material Request (MR)", false⟩
            , ⟨u + 1, "Confirm long-lead items delivery date", false⟩
            , ⟨u + 2, "Verify materials received against bill of materials", false⟩ ]
        , lastUpdated := none }
    , leadAbatement :=
        { status := if titleHasLead = true then "In Progress" else "Not Started"
        , notes :=
            if titleHasLead = true then "Abatement area defined and isolation setup started."
            else "Status derived from linked abatement items."
        , steps := []
        , lastUpdated := none }
    , generalPrereqs :=
        { status := "Not Started"
        , notes := "Obtaining required permits and access clearances."
        , steps :=
            [ ⟨u + 3, "Obtain Area Access Permit (AAP)", false⟩
            , ⟨u + 4, "Complete Job Hazard Analysis (JHA)", false⟩ ]
        , lastUpdated := none } }
  , drawings := some
      [ { id := u + 5
        , name := defaultDrawingName
        , description := "Part/Area requiring modification for " ++ title
        , imageUrl := ""
        , relatedScopeId := none
        , actions :=
            [ { id := u + 6
              , description := "Perform Initial Site Survey"
              , percentComplete := 0
              , notes := "Check for potential interferences."
              , steps := [⟨u + 7, "Action complete?", false⟩]
              , imageAttachment := none
              , lastUpdated := none } ] } ] }

/-- The first-run seeding batch (App.jsx lines 284-301): one
`createDefaultScopeData` document per `SCOPE_NAMES` title, keyed by the
document's own id.  Each scope gets a disjoint block of fresh UUIDs. -/
def initializeScopes (randPart u : Nat) : Store :=
  SCOPE_NAMES.enum.map (fun p =>
    let scopeData := createDefaultScopeData p.2 randPart (u + 8 * p.1)
    (scopeData.id, scopeData))

/-- The two figures computed by `SummaryPage.summaryData`
(App.jsx lines 1473-1502). -/
structure SummaryData where
  completionRate : ℚ
  actionCompletionRate : ℚ
deriving DecidableEq

/-- `SummaryPage.summaryData` (App.jsx lines 1473-1502): the "TMODs
completion" rate is the share of drawings whose status is `'green'` among
all drawings of all scopes; the "Action Item Progress" rate is the share
of completed steps among all steps. -/
def summaryData (scopes : Store) : SummaryData :=
  let allDrawings := (scopes.map Prod.snd).flatMap (fun scope => scope.drawings.getD [])
  let totalDrawings := allDrawings.length
  let totalActionsSteps :=
    (allDrawings.map (fun d => (d.actions.map (fun a => a.steps.length)).sum)).sum
  let completedActionsSteps :=
    (allDrawings.map (fun d =>
      (d.actions.map (fun a => (a.steps.filter (fun s => s.isComplete)).length)).sum)).sum
  let completePartCount :=
    (allDrawings.filter (fun d => getDrawingStatus d.actions == "green")).length
  let completionRate : ℚ :=
    if totalDrawings > 0 then ((completePartCount : ℚ) / (totalDrawings : ℚ)) * 100 else 0
  let actionCompletionRate : ℚ :=
    if totalActionsSteps > 0 then
      ((completedActionsSteps : ℚ) / (totalActionsSteps : ℚ)) * 100
    else 0
  ⟨completionRate, actionCompletionRate⟩

/-- The percentage rendered on the `DrawingCard` action-items button when
the status is not `'green'` (App.jsx line 1271):
`Math.round(drawing.actions.reduce((acc, a) => acc + calculatePercentFromSteps(a.steps), 0) / drawing.actions.length)`.
There is no emptiness guard: for an empty actions list JavaScript computes
`0 / 0 = NaN` and `Math.round(NaN) = NaN`, embedded here as `none`.  The
summed percentages are nonnegative (`calculatePercentFromSteps_nonneg`),
so the `.toNat` coercion into `mathRound` is lossless. -/
def drawingCardProgress (actions : List Action) : Option Int :=
  let total := (actions.map (fun a => calculatePercentFromSteps (some a.steps))).sum
  if actions.length = 0 then none
  else some (mathRound total.toNat actions.length)

/-- The part completion used by the PDF export (App.jsx lines 1333-1335):
`actions.length > 0 ? Math.round(totalActionPercent / actions.length) : 0`.
The summed percentages are nonnegative, so `.toNat` is lossless. -/
def exportPartCompletion (actions : List Action) : Int :=
  let totalActionPercent := (actions.map (fun a => calculatePercentFromSteps (some a.steps))).sum
  if actions.length > 0 then mathRound totalActionPercent.toNat actions.length else 0

/-! ## Spec-side definitions

These follow the specification's words, for comparison against the
embedded source functions. -/

/-- Spec side (§4.1): round to the nearest integer with ties away from
zero. -/
def specRoundTiesAway (q : ℚ) : ℤ := if 0 ≤ q then ⌊q + 1/2⌋ else ⌈q - 1/2⌉

/-- Spec side (§4.1): `stepCompletion(steps)`: `0` for empty/null input;
else `round(100 * count(completed) / count(all))` with ties away from
zero. -/
def specStepCompletion : Option (List Step) → ℤ
  | none => 0
  | some s =>
    if s = [] then 0
    else specRoundTiesAway
      (100 * ((s.filter (fun st => st.isComplete)).length : ℚ) / (s.length : ℚ))

/-- Spec side (§4.1): `statusLabel(percent)`: `100 → Complete`,
`0 → NotStarted`, else `InProgress`. -/
def specStatusLabel (percent : ℤ) : String :=
  if percent = 100 then "Complete"
  else if percent = 0 then "Not Started"
  else "In Progress"

/-- Spec side (§3): `percentComplete` of an Action, `round(100 ×
completedSteps / totalSteps)`, `0` if no steps. -/
def specActionPercent (a : Action) : ℤ := specStepCompletion (some a.steps)

/-- Spec side (§3): `percentComplete` of a Part, `round(mean of its
Actions' percentComplete)`, `0` if no actions. -/
def specPartPercent (d : Drawing) : ℤ :=
  if d.actions = [] then 0
  else round (((d.actions.map specActionPercent).sum : ℚ) / (d.actions.length : ℚ))

/-- Spec side (§3): a Scope's aggregate completion, `round(mean of its
Parts' percentComplete)`, `0` if no parts. -/
def specScopeAggregate (s : ScopeDoc) : ℤ :=
  let parts := s.drawings.getD []
  if parts = [] then 0
  else round (((parts.map specPartPercent).sum : ℚ) / (parts.length : ℚ))

/-- Spec side (§3): project-level completion, the mean of all non-summary
Scopes' aggregate completion (every stored document is a real scope; the
summary view is synthetic and not stored). -/
def specProjectCompletion (scopes : Store) : ℚ :=
  ((scopes.map (fun p => specScopeAggregate p.2)).sum : ℚ) / (scopes.length : ℚ)

/-- A part whose actions list is non-empty and whose actions are all at
100%: this is what the summary page's `'green'` drawing status amounts to
(`getDrawingStatus_eq_green_iff`). -/
def isFullyCompletePart (d : Drawing) : Bool :=
  !d.actions.isEmpty &&
    d.actions.all (fun a => calculatePercentFromSteps (some a.steps) == 100)

/-! ## Rounding lemmas -/

/-- The integer-division embedding of `Math.round(num/den)` agrees with
Mathlib's `round` (nearest integer, ties toward `+∞`) on the exact
rational `num/den`. -/
theorem mathRound_eq_round (num den : Nat) (h : 0 < den) :
    mathRound num den = round ((num : ℚ) / den) := by
  have hden : (den : ℚ) ≠ 0 := Nat.cast_ne_zero.mpr h.ne'
  have key : ((num : ℚ) / den + 1/2) = ((2*num + den : ℕ) : ℚ) / ((2*den : ℕ) : ℚ) := by
    push_cast
    field_simp
    ring
  have hnn : (0:ℚ) ≤ ((2*num + den : ℕ) : ℚ) / ((2*den : ℕ) : ℚ) := by positivity
  rw [round_eq, key, ← Int.natCast_floor_eq_floor hnn, Nat.floor_div_eq_div]
  rfl

/-- `mathRound` never exceeds the bound `M` when the fraction does. -/
theorem mathRound_le (num den M : Nat) (h : 0 < den) (hle : num ≤ M * den) :
    mathRound num den ≤ (M : ℤ) := by
  have hkey : 2 * num + den < (M + 1) * (2 * den) := by
    have hexp : (M + 1) * (2 * den) = 2 * (M * den) + 2 * den := by ring
    omega
  have hq : (2 * num + den) / (2 * den) < M + 1 := by
    rw [Nat.div_lt_iff_lt_mul (by omega)]
    exact hkey
  unfold mathRound
  exact_mod_cast Nat.lt_succ_iff.mp hq

/-- `mathRound` hits the bound `M` exactly when the fraction reaches
`M - 1/2`. -/
theorem mathRound_eq_iff (num den M : Nat) (h : 0 < den) (hle : num ≤ M * den) :
    mathRound num den = (M : ℤ) ↔ 2 * M * den ≤ 2 * num + den := by
  have hub := mathRound_le num den M h hle
  have hdiv : M ≤ (2 * num + den) / (2 * den) ↔ M * (2 * den) ≤ 2 * num + den :=
    Nat.le_div_iff_mul_le (by omega)
  have hmm : M * (2 * den) = 2 * M * den := by ring
  rw [hmm] at hdiv
  have hcast : mathRound num den = (((2 * num + den) / (2 * den) : ℕ) : ℤ) := rfl
  rw [hcast] at hub ⊢
  constructor
  · intro hEq
    exact hdiv.mp (by exact_mod_cast hEq.ge)
  · intro hge
    have h1 : M ≤ (2 * num + den) / (2 * den) := hdiv.mpr hge
    have h2 : (M : ℤ) ≤ (((2 * num + den) / (2 * den) : ℕ) : ℤ) := by exact_mod_cast h1
    omega

/-- The number of completed steps never exceeds the number of steps. -/
theorem completed_le_total (s : List Step) :
    (s.filter (fun st => st.isComplete)).length ≤ s.length :=
  List.length_filter_le _ s

/-- The step calculator is nonnegative. -/
theorem calculatePercentFromSteps_nonneg (steps : Option (List Step)) :
    0 ≤ calculatePercentFromSteps steps := by
  unfold calculatePercentFromSteps
  cases steps with
  | none => simp
  | some s =>
    simp only
    split_ifs <;> first | rfl | exact Int.natCast_nonneg _

/-- The step calculator never exceeds 100. -/
theorem calculatePercentFromSteps_le_100 (steps : Option (List Step)) :
    calculatePercentFromSteps steps ≤ 100 := by
  unfold calculatePercentFromSteps
  cases steps with
  | none => simp
  | some s =>
    simp only
    split_ifs with h1 h2
    · norm_num
    · have hc := completed_le_total s
      have := mathRound_le ((s.filter (fun st => st.isComplete)).length * 100) s.length 100
        (by omega) (by omega)
      exact this
    · norm_num

/-- The step calculator returns 100 exactly when at least `199/200` of a
non-empty list's steps are complete. -/
theorem calculatePercentFromSteps_eq_100_iff (s : List Step) (hs : s ≠ []) :
    calculatePercentFromSteps (some s) = 100 ↔
      199 * s.length ≤ 200 * (s.filter (fun st => st.isComplete)).length := by
  have hlen : s.length ≠ 0 := by simpa using List.length_eq_zero.not.mpr hs
  have hc := completed_le_total s
  unfold calculatePercentFromSteps
  simp only [if_neg hlen, if_pos (by omega : s.length > 0)]
  have hiff := mathRound_eq_iff ((s.filter (fun st => st.isComplete)).length * 100) s.length 100
    (by omega) (by omega)
  push_cast at hiff
  rw [hiff]
  omega

/-- For nonnegative percentages the source's status chain (`=100 →
Complete`, `>0 → In Progress`, else `Not Started`) agrees with the spec's
(`=100 → Complete`, `=0 → Not Started`, else `In Progress`). -/
theorem percentStatus_eq_specStatusLabel (percent : ℤ) (h : 0 ≤ percent) :
    percentStatus percent = specStatusLabel percent := by
  unfold percentStatus specStatusLabel
  split_ifs <;> first | rfl | omega

/-! ## Claim theorems -/

/-- **C1**: for every step list `s`, `calculatePercentFromSteps` returns 0
when `s` is null or empty, and otherwise returns
`round(100 * completed / total)` rounded to the nearest integer with ties
away from zero — i.e. it coincides with the spec-side `specStepCompletion`
on every input. -/
theorem c1_stepCompletion_matches_spec (steps : Option (List Step)) :
    calculatePercentFromSteps steps = specStepCompletion steps := by
  cases steps with
  | none => rfl
  | some s =>
    by_cases hs : s = []
    · subst hs; rfl
    · have hlen : s.length ≠ 0 := fun h => hs (List.length_eq_zero.mp h)
      unfold calculatePercentFromSteps specStepCompletion specRoundTiesAway
      simp only [if_neg hlen, if_neg hs, if_pos (by omega : s.length > 0)]
      set c := (s.filter (fun st => st.isComplete)).length with hc
      have hq : (0:ℚ) ≤ 100 * (c:ℚ) / (s.length : ℚ) := by positivity
      rw [if_pos hq, ← round_eq, mathRound_eq_round (c * 100) s.length (by omega)]
      congr 1
      push_cast
      ring

/-- **C10** (amended): the step calculator returns an integer in `[0, 100]`;
for a non-empty list it returns 100 exactly when at least a `199/200`
fraction of the steps is complete (`199 * total ≤ 200 * completed`) — in
particular when every step is complete, but not only then. -/
theorem c10_range_and_100_characterization (s : List Step) :
    0 ≤ calculatePercentFromSteps (some s) ∧
    calculatePercentFromSteps (some s) ≤ 100 ∧
    (calculatePercentFromSteps (some s) = 100 ↔
      s ≠ [] ∧ 199 * s.length ≤ 200 * (s.filter (fun st => st.isComplete)).length) ∧
    ((s ≠ [] ∧ ∀ st ∈ s, st.isComplete) → calculatePercentFromSteps (some s) = 100) := by
  refine ⟨calculatePercentFromSteps_nonneg _, calculatePercentFromSteps_le_100 _, ?_, ?_⟩
  · by_cases hs : s = []
    · subst hs
      simp [calculatePercentFromSteps]
    · rw [calculatePercentFromSteps_eq_100_iff s hs]
      tauto
  · rintro ⟨hs, hall⟩
    rw [calculatePercentFromSteps_eq_100_iff s hs]
    have : s.filter (fun st => st.isComplete) = s :=
      List.filter_eq_self.mpr (fun a ha => by simpa using hall a ha)
    rw [this]
    omega

/-- A 200-step list with 199 completed steps and one incomplete step. -/
def almostCompleteSteps : List Step :=
  List.replicate 199 ⟨0, "s", true⟩ ++ [⟨1, "s", false⟩]

set_option maxRecDepth 4000 in
/-- **C10** (counterexample): a 200-step list with 199 steps complete is
not all-complete, yet the calculator returns 100 (`99.5` rounds up), so
"returns 100 exactly when ... every step is complete" fails. -/
theorem c10_counterexample :
    calculatePercentFromSteps (some almostCompleteSteps) = 100 ∧
    almostCompleteSteps.all (fun st => st.isComplete) = false := by
  decide

/-- **C6**: the status-label mapping yields `Complete` exactly at 100,
`Not Started` exactly at 0 and `In Progress` otherwise (it agrees with the
spec's `statusLabel` on every nonnegative percentage); and the prerequisite
save path persists, for a step-tracked key, exactly the current steps
together with the status recomputed from those steps — never a stale
status. -/
theorem c6_statusLabel_and_writeback :
    (∀ percent : ℤ, 0 ≤ percent → percentStatus percent = specStatusLabel percent) ∧
    (∀ (key : PrereqKey) (currentPrereq : Prereq) (scope : ScopeDoc) (now : Nat),
      isStepPrereq key = true →
      (getPrereq (handleSavePrereq key currentPrereq scope now).prereqs key).steps
          = currentPrereq.steps ∧
      (getPrereq (handleSavePrereq key currentPrereq scope now).prereqs key).status
          = specStatusLabel (calculatePercentFromSteps
              (some (getPrereq (handleSavePrereq key currentPrereq scope now).prereqs key).steps))) := by
  constructor
  · exact percentStatus_eq_specStatusLabel
  · intro key currentPrereq scope now hkey
    cases key with
    | leadAbatement => simp [isStepPrereq] at hkey
    | materials =>
      refine ⟨rfl, ?_⟩
      simp only [handleSavePrereq, getPrereq, setPrereq, isStepPrereq]
      exact percentStatus_eq_specStatusLabel _ (calculatePercentFromSteps_nonneg _)
    | generalPrereqs =>
      refine ⟨rfl, ?_⟩
      simp only [handleSavePrereq, getPrereq, setPrereq, isStepPrereq]
      exact percentStatus_eq_specStatusLabel _ (calculatePercentFromSteps_nonneg _)

/-- An empty prerequisite entry, used in concrete test documents. -/
def emptyPrereq : Prereq := ⟨"Not Started", "", [], none⟩

/-- A prerequisite with one completed step, used in concrete test
documents. -/
def donePrereq : Prereq := ⟨"Not Started", "n", [⟨0, "s", true⟩], none⟩

/-- A minimal scope document used in concrete test documents. -/
def plainScope : ScopeDoc :=
  { id := "x", title := "X"
  , prereqs := ⟨emptyPrereq, emptyPrereq, emptyPrereq⟩
  , drawings := none }

/-- Witness for `c6_statusLabel_and_writeback`: at percentage 50 the
mapping gives "In Progress", and saving the materials prerequisite with a
single completed step writes status "Complete" with those steps. -/
theorem c6_witness :
    percentStatus 50 = specStatusLabel 50 ∧
    (getPrereq (handleSavePrereq PrereqKey.materials donePrereq plainScope
        7).prereqs PrereqKey.materials).status = "Complete" := by
  refine ⟨(c6_statusLabel_and_writeback.1 50 (by decide)), ?_⟩
  have h := (c6_statusLabel_and_writeback.2 PrereqKey.materials donePrereq plainScope
      7 (by decide)).2
  rw [h]
  decide

/-- **C9**: when the Lead Abatement scope document is absent from the
snapshot, or present without a `drawings` field, the Cross-Scope Linker
returns the all-zero result for every target scope id instead of failing. -/
theorem c9_linker_tolerates_missing_abatement (allScopes : Store) (targetScopeId : String)
    (h : lookupScope allScopes LEAD_ABATEMENT_ID = none ∨
         ∃ doc, lookupScope allScopes LEAD_ABATEMENT_ID = some doc ∧ doc.drawings = none) :
    getLeadAbatementProgressForScope allScopes targetScopeId = ⟨0, 0, 0, 0⟩ := by
  rcases h with h | ⟨doc, h1, h2⟩
  · simp [getLeadAbatementProgressForScope, h]
  · simp [getLeadAbatementProgressForScope, h1, h2]

/-- Witness for `c9_linker_tolerates_missing_abatement`: the empty
snapshot has no Lead Abatement document, and the linker returns all
zeroes on it. -/
theorem c9_witness :
    getLeadAbatementProgressForScope [] "4113a_civil_mod_interferences" = ⟨0, 0, 0, 0⟩ :=
  c9_linker_tolerates_missing_abatement [] "4113a_civil_mod_interferences" (Or.inl rfl)

/-- Sums distribute over `flatMap`. -/
theorem sum_map_flatMap {α β : Type} (l : List α) (g : α → List β) (f : β → ℕ) :
    ((l.flatMap g).map f).sum = (l.map (fun x => ((g x).map f).sum)).sum := by
  induction l with
  | nil => rfl
  | cons x xs ih => simp [List.flatMap_cons, ih]

/-- Entries that a filter drops contribute 0, so the filtered sum is the
full sum. -/
theorem sum_filter_of_dropped_zero {α : Type} (l : List α) (p : α → Bool) (f : α → ℕ)
    (hf : ∀ a ∈ l, p a = false → f a = 0) :
    ((l.filter p).map f).sum = (l.map f).sum := by
  induction l with
  | nil => rfl
  | cons a as ih =>
    have ih' := ih (fun x hx => hf x (List.mem_cons_of_mem a hx))
    by_cases h : p a
    · simp [List.filter_cons, h, ih']
    · have h0 : f a = 0 := hf a (List.mem_cons_self a as) (by simpa using h)
      simp [List.filter_cons, h, ih', h0]

/-- Completed-step sums never exceed total-step sums across a drawing
list. -/
theorem completedSum_le_totalSum (ds : List Drawing) :
    (ds.map (fun d =>
      (d.actions.map (fun a => (a.steps.filter (fun s => s.isComplete)).length)).sum)).sum ≤
    (ds.map (fun d => (d.actions.map (fun a => a.steps.length)).sum)).sum := by
  apply List.sum_le_sum
  intro d _
  apply List.sum_le_sum
  intro a _
  exact List.length_filter_le _ _

/-- **C2**: for a snapshot holding the Lead Abatement document with its
drawings, and a target scope other than Lead Abatement itself, the linker
considers exactly the abatement drawings whose `relatedScopeId` is the
target: with none linked it returns the all-zero result and the display
status is the distinguished "N/A"; with some linked it returns their
count, step totals summed over every action of every linked drawing
(an action with no steps excluded, contributing 0 to both totals), and
`percent = round(100 * completedSteps / totalSteps)`. -/
theorem c2_crossScopeLinker_characterization (allScopes : Store) (targetScopeId : String)
    (scope : ScopeDoc) (leadDoc : ScopeDoc) (ds : List Drawing)
    (hne : targetScopeId ≠ LEAD_ABATEMENT_ID)
    (hlook : lookupScope allScopes LEAD_ABATEMENT_ID = some leadDoc)
    (hdraw : leadDoc.drawings = some ds)
    (hsid : scope.id = targetScopeId) :
    (ds.filter (fun d => d.relatedScopeId == some targetScopeId) = [] →
      getLeadAbatementProgressForScope allScopes targetScopeId = ⟨0, 0, 0, 0⟩ ∧
      getDisplayStatus allScopes scope PrereqKey.leadAbatement = "N/A") ∧
    (ds.filter (fun d => d.relatedScopeId == some targetScopeId) ≠ [] →
      (getLeadAbatementProgressForScope allScopes targetScopeId).linkedItemsCount =
        (ds.filter (fun d => d.relatedScopeId == some targetScopeId)).length ∧
      (getLeadAbatementProgressForScope allScopes targetScopeId).totalSteps =
        ((((ds.filter (fun d => d.relatedScopeId == some targetScopeId)).flatMap
            (fun d => d.actions)).filter (fun a => !a.steps.isEmpty)).map
            (fun a => a.steps.length)).sum ∧
      (getLeadAbatementProgressForScope allScopes targetScopeId).completedSteps =
        ((((ds.filter (fun d => d.relatedScopeId == some targetScopeId)).flatMap
            (fun d => d.actions)).filter (fun a => !a.steps.isEmpty)).map
            (fun a => (a.steps.filter (fun s => s.isComplete)).length)).sum ∧
      (getLeadAbatementProgressForScope allScopes targetScopeId).percent =
        round ((100 * ((getLeadAbatementProgressForScope allScopes targetScopeId).completedSteps : ℚ)) /
          ((getLeadAbatementProgressForScope allScopes targetScopeId).totalSteps : ℚ))) := by
  have hr : getLeadAbatementProgressForScope allScopes targetScopeId =
      (if (ds.filter (fun d => d.relatedScopeId == some targetScopeId)).length = 0 then
        (⟨0, 0, 0, 0⟩ : AbatementProgress)
      else
        let relevantDrawings := ds.filter (fun d => d.relatedScopeId == some targetScopeId)
        let totalSteps :=
          (relevantDrawings.map (fun d => (d.actions.map (fun a => a.steps.length)).sum)).sum
        let completedSteps :=
          (relevantDrawings.map (fun d =>
            (d.actions.map (fun a => (a.steps.filter (fun s => s.isComplete)).length)).sum)).sum
        let percent := if totalSteps > 0 then mathRound (completedSteps * 100) totalSteps else 0
        ⟨percent, totalSteps, completedSteps, relevantDrawings.length⟩) := by
    simp only [getLeadAbatementProgressForScope, hlook, hdraw]
  constructor
  · intro hempty
    have hlen : (ds.filter (fun d => d.relatedScopeId == some targetScopeId)).length = 0 := by
      rw [hempty]; rfl
    have hzero : getLeadAbatementProgressForScope allScopes targetScopeId = ⟨0, 0, 0, 0⟩ := by
      rw [hr, if_pos hlen]

    refine ⟨hzero, ?_⟩
    unfold getDisplayStatus
    rw [if_pos ⟨rfl, by rw [hsid]; exact hne⟩, hsid, hzero]
    rfl
  · intro hne'
    have hlen : ¬ (ds.filter (fun d => d.relatedScopeId == some targetScopeId)).length = 0 := by
      simpa [List.length_eq_zero] using hne'
    set linked := ds.filter (fun d => d.relatedScopeId == some targetScopeId) with hlinked
    set T := (linked.map (fun d => (d.actions.map (fun a => a.steps.length)).sum)).sum with hT
    set C := (linked.map (fun d =>
      (d.actions.map (fun a => (a.steps.filter (fun s => s.isComplete)).length)).sum)).sum with hC
    have hrec : getLeadAbatementProgressForScope allScopes targetScopeId =
        ⟨if T > 0 then mathRound (C * 100) T else 0, T, C, linked.length⟩ := by
      rw [hr, if_neg hlen]
    rw [hrec]
    refine ⟨rfl, ?_, ?_, ?_⟩
    · show T = _
      rw [sum_filter_of_dropped_zero (linked.flatMap (fun d => d.actions))
          (fun a => !a.steps.isEmpty) (fun a => a.steps.length)
          (fun a _ ha => by
            have h : a.steps = [] := List.isEmpty_iff.mp (by simpa using ha)
            simp [h]),
        sum_map_flatMap]
    · show C = _
      rw [sum_filter_of_dropped_zero (linked.flatMap (fun d => d.actions))
          (fun a => !a.steps.isEmpty) (fun a => (a.steps.filter (fun s => s.isComplete)).length)
          (fun a _ ha => by
            have h : a.steps = [] := List.isEmpty_iff.mp (by simpa using ha)
            simp [h]),
        sum_map_flatMap]
    · show (if T > 0 then mathRound (C * 100) T else 0) = round ((100 * (C : ℚ)) / (T : ℚ))
      by_cases hT0 : T > 0
      · rw [if_pos hT0, mathRound_eq_round (C * 100) T hT0]
        congr 1
        push_cast
        ring
      · have hT0' : T = 0 := by omega
        have hC0 : C = 0 := by
          have hle := completedSum_le_totalSum linked
          rw [← hT, ← hC] at hle
          omega
        rw [if_neg hT0, hT0', hC0]
        norm_num

/-- Abatement drawing linked to `scope_y`, one action, its single step
complete. -/
def linkedDrawing1 : Drawing :=
  ⟨1, "d1", "", "", some "scope_y", [⟨11, "a1", 0, "", [⟨111, "s", true⟩], none, none⟩]⟩

/-- Abatement drawing linked to `scope_y`, one action, its single step
incomplete. -/
def linkedDrawing2 : Drawing :=
  ⟨2, "d2", "", "", some "scope_y", [⟨21, "a2", 0, "", [⟨211, "s", false⟩], none, none⟩]⟩

/-- A Lead Abatement document with two drawings linked to `scope_y`. -/
def leadScopeDoc : ScopeDoc :=
  { id := "lead_abatement", title := "Lead Abatement"
  , prereqs := ⟨emptyPrereq, emptyPrereq, emptyPrereq⟩
  , drawings := some [linkedDrawing1, linkedDrawing2] }

/-- A target scope with two linked abatement drawings. -/
def scopeY : ScopeDoc :=
  { id := "scope_y", title := "Y"
  , prereqs := ⟨emptyPrereq, emptyPrereq, emptyPrereq⟩
  , drawings := some [] }

/-- A target scope with no linked abatement drawings. -/
def scopeZ : ScopeDoc :=
  { id := "scope_z", title := "Z"
  , prereqs := ⟨emptyPrereq, emptyPrereq, emptyPrereq⟩
  , drawings := some [] }

/-- A snapshot holding the abatement document and two plain scopes. -/
def storeC2 : Store :=
  [("lead_abatement", leadScopeDoc), ("scope_y", scopeY), ("scope_z", scopeZ)]

/-- Witness for `c2_crossScopeLinker_characterization`: on a concrete
snapshot with two drawings linked to `scope_y` (steps `[true]` and
`[false]`) the linker's percent is the rounded step ratio, and for
`scope_z` with nothing linked the display status is "N/A". -/
theorem c2_witness :
    (getLeadAbatementProgressForScope storeC2 "scope_y").percent =
      round ((100 * ((getLeadAbatementProgressForScope storeC2 "scope_y").completedSteps : ℚ)) /
        ((getLeadAbatementProgressForScope storeC2 "scope_y").totalSteps : ℚ)) ∧
    getDisplayStatus storeC2 scopeZ PrereqKey.leadAbatement = "N/A" := by
  constructor
  · exact ((c2_crossScopeLinker_characterization storeC2 "scope_y" scopeY leadScopeDoc
      [linkedDrawing1, linkedDrawing2] (by decide) (by decide) rfl rfl).2 (by decide)).2.2.2
  · exact ((c2_crossScopeLinker_characterization storeC2 "scope_z" scopeZ leadScopeDoc
      [linkedDrawing1, linkedDrawing2] (by decide) (by decide) rfl rfl).1 (by decide)).2

/-- A list of integers bounded by 100 sums to `100 * length` exactly when
every entry is 100. -/
theorem sum_eq_100_mul_length_iff (l : List ℤ) (hle : ∀ x ∈ l, x ≤ 100) :
    l.sum = 100 * l.length ↔ ∀ x ∈ l, x = 100 := by
  induction l with
  | nil => simp
  | cons x xs ih =>
    have hx : x ≤ 100 := hle x (List.mem_cons_self x xs)
    have hle' : ∀ y ∈ xs, y ≤ 100 := fun y hy => hle y (List.mem_cons_of_mem x hy)
    have hsum_le : xs.sum ≤ 100 * xs.length := by
      have h := List.sum_le_card_nsmul xs 100 hle'
      simpa [nsmul_eq_mul, mul_comm] using h
    rw [List.sum_cons, List.length_cons]
    push_cast
    constructor
    · intro h
      have hx100 : x = 100 ∧ xs.sum = 100 * xs.length := by constructor <;> omega
      intro y hy
      rcases List.mem_cons.mp hy with rfl | hy'
      · exact hx100.1
      · exact (ih hle').mp hx100.2 y hy'
    · intro h
      have hx100 : x = 100 := h x (List.mem_cons_self x xs)
      have hxs : xs.sum = 100 * xs.length :=
        (ih hle').mpr (fun y hy => h y (List.mem_cons_of_mem x hy))
      omega

/-- The summary page's `'green'` drawing status holds exactly for a
non-empty actions list whose actions are all at 100%. -/
theorem getDrawingStatus_eq_green_iff (actions : List Action) :
    getDrawingStatus actions = "green" ↔
      actions ≠ [] ∧ ∀ a ∈ actions, calculatePercentFromSteps (some a.steps) = 100 := by
  unfold getDrawingStatus
  by_cases h0 : actions.length = 0
  · rw [if_pos h0]
    have hnil : actions = [] := List.length_eq_zero.mp h0
    constructor
    · intro h
      exact absurd h (by decide)
    · rintro ⟨hne, -⟩
      exact absurd hnil hne
  · rw [if_neg h0]
    simp only
    have hval : ¬ ((actions.length : Int) = 0) := by exact_mod_cast h0
    rw [if_neg hval]
    have hle : ∀ x ∈ actions.map (fun a => calculatePercentFromSteps (some a.steps)), x ≤ 100 := by
      intro x hx
      obtain ⟨a, -, rfl⟩ := List.mem_map.mp hx
      exact calculatePercentFromSteps_le_100 _
    have hkey := sum_eq_100_mul_length_iff
      (actions.map (fun a => calculatePercentFromSteps (some a.steps))) hle
    rw [List.length_map] at hkey
    by_cases hg : (actions.map (fun a => calculatePercentFromSteps (some a.steps))).sum =
        100 * (actions.length : Int)
    · rw [if_pos hg]
      constructor
      · intro _
        refine ⟨fun hnil => h0 (by simp [hnil]), ?_⟩
        intro a ha
        exact hkey.mp hg _ (List.mem_map.mpr ⟨a, ha, rfl⟩)
      · intro _
        rfl
    · rw [if_neg hg]
      have hrhsF : ¬ (actions ≠ [] ∧ ∀ a ∈ actions, calculatePercentFromSteps (some a.steps) = 100) := by
        rintro ⟨-, hall⟩
        refine hg (hkey.mpr ?_)
        intro x hx
        obtain ⟨a, ha, rfl⟩ := List.mem_map.mp hx
        exact hall a ha
      split_ifs <;> constructor <;> intro h <;>
        first
          | exact absurd h (by decide)
          | exact absurd h hrhsF

/-- The Boolean form: the `'green'` filter used by the summary equals the
fully-complete-part predicate. -/
theorem green_beq_eq_isFullyCompletePart (d : Drawing) :
    (getDrawingStatus d.actions == "green") = isFullyCompletePart d := by
  by_cases h : getDrawingStatus d.actions = "green"
  · rw [h]
    obtain ⟨hne, hall⟩ := (getDrawingStatus_eq_green_iff d.actions).mp h
    have : isFullyCompletePart d = true := by
      unfold isFullyCompletePart
      rw [Bool.and_eq_true, List.all_eq_true]
      constructor
      · simpa [List.isEmpty_iff] using hne
      · intro a ha
        exact beq_iff_eq.mpr (hall a ha)
    rw [this]
    rfl
  · have h1 : (getDrawingStatus d.actions == "green") = false := beq_eq_false_iff_ne.mpr h
    have h2 : isFullyCompletePart d = false := by
      by_contra hcon
      have htrue : isFullyCompletePart d = true := by
        cases hfc : isFullyCompletePart d
        · exact absurd hfc hcon
        · rfl
      apply h
      apply (getDrawingStatus_eq_green_iff d.actions).mpr
      unfold isFullyCompletePart at htrue
      rw [Bool.and_eq_true, List.all_eq_true] at htrue
      obtain ⟨hne, hall⟩ := htrue
      refine ⟨by simpa [List.isEmpty_iff] using hne, ?_⟩
      intro a ha
      exact beq_iff_eq.mp (hall a ha)
    rw [h1, h2]

/-- Unfolding equation for `specStepCompletion` on a present list. -/
theorem specStepCompletion_some (s : List Step) :
    specStepCompletion (some s) =
      if s = [] then 0
      else specRoundTiesAway
        (100 * ((s.filter (fun st => st.isComplete)).length : ℚ) / (s.length : ℚ)) := rfl

/-- **C3** (amended): the project-level "TMODs completion" figure of the
summary page is not the mean of the scopes' aggregate percentages; it
equals 100 times the share of fully complete parts (non-empty actions,
every action at 100%) among all parts pooled across all scopes, and 0
when there are no parts. -/
theorem c3_completionRate_is_share_of_complete_parts (scopes : Store) :
    (summaryData scopes).completionRate =
      if ((scopes.map Prod.snd).flatMap (fun scope => scope.drawings.getD [])).length = 0 then 0
      else ((((scopes.map Prod.snd).flatMap (fun scope => scope.drawings.getD [])).filter
          isFullyCompletePart).length : ℚ) /
        (((scopes.map Prod.snd).flatMap (fun scope => scope.drawings.getD [])).length : ℚ) * 100 := by
  unfold summaryData
  simp only
  have hfc : ((scopes.map Prod.snd).flatMap (fun scope => scope.drawings.getD [])).filter
      (fun d => getDrawingStatus d.actions == "green") =
      ((scopes.map Prod.snd).flatMap (fun scope => scope.drawings.getD [])).filter
      isFullyCompletePart :=
    List.filter_congr (fun d _ => green_beq_eq_isFullyCompletePart d)
  rw [hfc]
  by_cases h0 : ((scopes.map Prod.snd).flatMap (fun scope => scope.drawings.getD [])).length = 0
  · rw [if_pos h0, if_neg (by omega)]
  · rw [if_neg h0, if_pos (by omega)]

/-- An action half done: two steps, one complete. -/
def actionHalf : Action := ⟨31, "a", 0, "", [⟨311, "s1", true⟩, ⟨312, "s2", false⟩], none, none⟩

/-- An action fully done: one step, complete. -/
def actionFull : Action := ⟨41, "a", 0, "", [⟨411, "s1", true⟩], none, none⟩

/-- A part at 50%. -/
def drawingHalf : Drawing := ⟨3, "dA", "", "", none, [actionHalf]⟩

/-- A part at 100%. -/
def drawingFull : Drawing := ⟨4, "dB", "", "", none, [actionFull]⟩

/-- A scope whose single part is at 50%. -/
def scopeHalf : ScopeDoc :=
  { id := "a", title := "A"
  , prereqs := ⟨emptyPrereq, emptyPrereq, emptyPrereq⟩
  , drawings := some [drawingHalf] }

/-- A scope whose single part is at 100%. -/
def scopeFull : ScopeDoc :=
  { id := "b", title := "B"
  , prereqs := ⟨emptyPrereq, emptyPrereq, emptyPrereq⟩
  , drawings := some [drawingFull] }

/-- A snapshot with one half-done and one fully-done scope. -/
def storeC3 : Store := [("a", scopeHalf), ("b", scopeFull)]

/-- **C3** (counterexample): on a store with a 50% scope and a 100% scope
the summary page shows `50` (one of two parts fully complete) while the
mean of the scopes' aggregate percentages is `75` — the two figures
differ, refuting the claim. -/
theorem c3_counterexample :
    (summaryData storeC3).completionRate = 50 ∧
    specProjectCompletion storeC3 = 75 ∧
    (summaryData storeC3).completionRate ≠ specProjectCompletion storeC3 := by
  have e1 : (summaryData storeC3).completionRate = ((1:ℕ):ℚ)/((2:ℕ):ℚ)*100 := rfl
  have a1 : specActionPercent actionHalf = 50 := by
    have h1 : (actionHalf.steps.filter (fun st => st.isComplete)).length = 1 := rfl
    have h2 : actionHalf.steps.length = 2 := rfl
    unfold specActionPercent
    rw [specStepCompletion_some, if_neg (by decide : ¬ (actionHalf.steps = [])), h1, h2]
    unfold specRoundTiesAway
    norm_num
  have a2 : specActionPercent actionFull = 100 := by
    have h1 : (actionFull.steps.filter (fun st => st.isComplete)).length = 1 := rfl
    have h2 : actionFull.steps.length = 1 := rfl
    unfold specActionPercent
    rw [specStepCompletion_some, if_neg (by decide : ¬ (actionFull.steps = [])), h1, h2]
    unfold specRoundTiesAway
    norm_num
  have p1 : specPartPercent drawingHalf = 50 := by
    unfold specPartPercent
    rw [if_neg (by decide : ¬ (drawingHalf.actions = []))]
    have hm : drawingHalf.actions.map specActionPercent = [50] := by
      show [specActionPercent actionHalf] = [50]
      rw [a1]
    rw [hm, show drawingHalf.actions.length = 1 from rfl]
    norm_num [round_eq]
  have p2 : specPartPercent drawingFull = 100 := by
    unfold specPartPercent
    rw [if_neg (by decide : ¬ (drawingFull.actions = []))]
    have hm : drawingFull.actions.map specActionPercent = [100] := by
      show [specActionPercent actionFull] = [100]
      rw [a2]
    rw [hm, show drawingFull.actions.length = 1 from rfl]
    norm_num [round_eq]
  have s1 : specScopeAggregate scopeHalf = 50 := by
    unfold specScopeAggregate
    rw [show scopeHalf.drawings.getD [] = [drawingHalf] from rfl]
    rw [if_neg (by decide : ¬ ([drawingHalf] = ([] : List Drawing)))]
    have hm : [drawingHalf].map specPartPercent = [50] := by
      show [specPartPercent drawingHalf] = [50]
      rw [p1]
    rw [hm]
    norm_num [round_eq]
  have s2 : specScopeAggregate scopeFull = 100 := by
    unfold specScopeAggregate
    rw [show scopeFull.drawings.getD [] = [drawingFull] from rfl]
    rw [if_neg (by decide : ¬ ([drawingFull] = ([] : List Drawing)))]
    have hm : [drawingFull].map specPartPercent = [100] := by
      show [specPartPercent drawingFull] = [100]
      rw [p2]
    rw [hm]
    norm_num [round_eq]
  have sp : specProjectCompletion storeC3 = 75 := by
    unfold specProjectCompletion
    have hm : storeC3.map (fun p => specScopeAggregate p.2) = [50, 100] := by
      show [specScopeAggregate scopeHalf, specScopeAggregate scopeFull] = [50, 100]
      rw [s1, s2]
    rw [hm, show storeC3.length = 2 from rfl]
    norm_num
  refine ⟨?_, sp, ?_⟩
  · rw [e1]; norm_num
  · rw [e1, sp]; norm_num

/-- **C5** (evaluation at the failing input): for a part whose actions
list is empty, the drawing status is `'red'` (Not Started) and every pure
calculator degrades to 0, but the progress percentage displayed on the
`DrawingCard` action-items button is JavaScript `NaN` (`0 / 0`, embedded
as `none`), not 0 — unlike the PDF export's guarded version of the same
figure, which does return 0. -/
theorem c5_empty_actions_render_nan :
    drawingCardProgress [] = none ∧
    drawingCardProgress [] ≠ some 0 ∧
    getDrawingStatus [] = "red" ∧
    exportPartCompletion [] = 0 ∧
    calculatePercentFromSteps (some []) = 0 ∧
    calculatePercentFromSteps none = 0 ∧
    getLeadAbatementProgressForScope [] "scope_y" = ⟨0, 0, 0, 0⟩ := by
  refine ⟨rfl, by decide, rfl, by decide, rfl, rfl, rfl⟩

/-- An abatement action with two incomplete steps. -/
def twoStepAction : Action := ⟨2, "act", 0, "", [⟨10, "s0", false⟩, ⟨11, "s1", false⟩], none, none⟩

/-- A drawing holding `twoStepAction`. -/
def twoStepDrawing : Drawing := ⟨1, "d", "", "", none, [twoStepAction]⟩

/-- A Lead Abatement document holding `twoStepDrawing`. -/
def twoStepScope : ScopeDoc :=
  { id := "lead_abatement", title := "Lead Abatement"
  , prereqs := ⟨emptyPrereq, emptyPrereq, emptyPrereq⟩
  , drawings := some [twoStepDrawing] }

/-- **C7** (counterexample): toggling an abatement action whose two steps
are both incomplete leaves the second step incomplete — the resulting
step states `[true, false]` are not uniform, so "sets all steps to a
uniform completed/incomplete state" fails. -/
theorem c7_counterexample :
    (toggleAbatementAction twoStepScope 1 2 0).map (fun out =>
        (out.drawings.getD []).map (fun d =>
          d.actions.map (fun a => a.steps.map (fun s => s.isComplete))))
      = some [[[true, false]]] ∧
    [true, false] ≠ [true, true] ∧ [true, false] ≠ [false, false] := by
  decide

/-- How the abatement toggle transforms one action: an action with a
different id is untouched; the matching action keeps every field except
that `lastUpdated` is stamped and the first step's `isComplete` is
flipped (later steps unchanged). -/
def actionToggleRel (actionId now : Nat) (a a' : Action) : Prop :=
  (a.id ≠ actionId → a' = a) ∧
  (a.id = actionId →
    a'.id = a.id ∧ a'.description = a.description ∧ a'.notes = a.notes ∧
    a'.percentComplete = a.percentComplete ∧ a'.imageAttachment = a.imageAttachment ∧
    a'.lastUpdated = some now ∧
    (a.steps = [] → a'.steps = []) ∧
    (∀ s rest, a.steps = s :: rest → a'.steps = ⟨s.id, s.description, !s.isComplete⟩ :: rest))

/-- How the abatement toggle transforms one drawing: a drawing with a
different id is untouched; the matching drawing keeps every field and its
actions relate pointwise by `actionToggleRel`. -/
def drawingToggleRel (drawingId actionId now : Nat) (d d' : Drawing) : Prop :=
  (d.id ≠ drawingId → d' = d) ∧
  (d.id = drawingId →
    d'.id = d.id ∧ d'.name = d.name ∧ d'.description = d.description ∧
    d'.imageUrl = d.imageUrl ∧ d'.relatedScopeId = d.relatedScopeId ∧
    List.Forall₂ (actionToggleRel actionId now) d.actions d'.actions)

/-- A map relates every element to its image. -/
theorem forall₂_map_self {α β : Type} {R : α → β → Prop} (f : α → β) (l : List α)
    (h : ∀ x ∈ l, R x (f x)) : List.Forall₂ R l (l.map f) := by
  induction l with
  | nil => exact List.Forall₂.nil
  | cons x xs ih =>
    rw [List.map_cons]
    exact List.Forall₂.cons (h x (List.mem_cons_self x xs))
      (ih (fun y hy => h y (List.mem_cons_of_mem x hy)))

/-- **C7** (amended): on a scope document with drawings, the abatement
toggle writes the same document with only the matching action changed,
and of that action only the first step's `isComplete` (flipped) and the
`lastUpdated` stamp: every other drawing, action, step and scope field —
including the second and later steps of the toggled action — is
unchanged.  (The claim's "sets all steps to a uniform state" only holds
for single-step actions.) -/
theorem c7_toggle_flips_first_step_only (scope : ScopeDoc) (ds : List Drawing)
    (drawingId actionId now : Nat) (h : scope.drawings = some ds) :
    ∃ ds', toggleAbatementAction scope drawingId actionId now =
        some { scope with drawings := some ds' } ∧
      List.Forall₂ (drawingToggleRel drawingId actionId now) ds ds' := by
  refine ⟨ds.map (fun d =>
    if d.id = drawingId then
      { d with actions := d.actions.map (fun a =>
          if a.id = actionId then
            { a with steps := toggleFirstStep a.steps, lastUpdated := some now }
          else a) }
    else d), ?_, ?_⟩
  · simp only [toggleAbatementAction, h]
  · apply forall₂_map_self
    intro d _
    by_cases hid : d.id = drawingId
    · rw [if_pos hid]
      refine ⟨fun hne => absurd hid hne, fun _ => ⟨rfl, rfl, rfl, rfl, rfl, ?_⟩⟩
      apply forall₂_map_self
      intro a _
      by_cases haid : a.id = actionId
      · rw [if_pos haid]
        refine ⟨fun hne => absurd haid hne, fun _ => ⟨rfl, rfl, rfl, rfl, rfl, rfl, ?_, ?_⟩⟩
        · intro hsteps
          show toggleFirstStep a.steps = []
          rw [hsteps]
          rfl
        · intro s rest hsteps
          show toggleFirstStep a.steps = _
          rw [hsteps]
          rfl
      · rw [if_neg haid]
        exact ⟨fun _ => rfl, fun hc => absurd hc haid⟩
    · rw [if_neg hid]
      exact ⟨fun _ => rfl, fun hc => absurd hc hid⟩

/-- Witness for `c7_toggle_flips_first_step_only`: the toggle applied to
the concrete two-step scope document. -/
theorem c7_witness :
    ∃ ds', toggleAbatementAction twoStepScope 1 2 5 =
        some { twoStepScope with drawings := some ds' } ∧
      List.Forall₂ (drawingToggleRel 1 2 5) [twoStepDrawing] ds' :=
  c7_toggle_flips_first_step_only twoStepScope [twoStepDrawing] 1 2 5 rfl

/-- A default-style abatement action: stored `percentComplete` 0, one
incomplete step. -/
def staleAction : Action := ⟨2, "act", 0, "", [⟨10, "Abatement Action Complete?", false⟩], none, none⟩

/-- A drawing holding `staleAction`. -/
def staleDrawing : Drawing := ⟨1, "d", "", "", some "scope_y", [staleAction]⟩

/-- A Lead Abatement document holding `staleDrawing`. -/
def staleScope : ScopeDoc :=
  { id := "lead_abatement", title := "Lead Abatement"
  , prereqs := ⟨emptyPrereq, emptyPrereq, emptyPrereq⟩
  , drawings := some [staleDrawing] }

/-- **C4** (counterexample): toggling the abatement action completes its
only step but leaves the persisted `percentComplete` at 0 while the
step-derived percentage of the persisted steps is 100 — the written
document's derived field is stale, refuting the claim for the
abatement-toggle write path. -/
theorem c4_counterexample :
    (toggleAbatementAction staleScope 1 2 0).map (fun out =>
        (out.drawings.getD []).map (fun d =>
          d.actions.map (fun a =>
            (a.percentComplete, calculatePercentFromSteps (some a.steps)))))
      = some [[((0 : ℤ), (100 : ℤ))]] ∧
    (0 : ℤ) ≠ 100 := by
  decide

/-- **C4** (amended): the action-modal save path does recompute the saved
action's `percentComplete` from its persisted steps (first conjunct), but
the abatement toggle leaves every stored `percentComplete` in the
document untouched (second conjunct), so after a toggle the stored field
is stale relative to the new steps; the UI is unaffected only because
every rendering re-derives percentages from steps. -/
theorem c4_write_paths_derived_fields :
    (∀ (scope : ScopeDoc) (drawingId actionId : Nat) (currentAction : Action)
        (tempImage : Option String) (now : Nat) (out : ScopeDoc) (ds' : List Drawing),
      currentAction.id = actionId →
      handleSaveAction scope drawingId actionId currentAction tempImage now = some out →
      out.drawings = some ds' →
      ∀ d ∈ ds', d.id = drawingId → ∀ a ∈ d.actions, a.id = actionId →
        a.percentComplete = calculatePercentFromSteps (some a.steps) ∧
        a.steps = currentAction.steps) ∧
    (∀ (scope out : ScopeDoc) (drawingId actionId now : Nat) (ds ds' : List Drawing),
      scope.drawings = some ds →
      toggleAbatementAction scope drawingId actionId now = some out →
      out.drawings = some ds' →
      ds'.map (fun d => d.actions.map (fun a => a.percentComplete)) =
        ds.map (fun d => d.actions.map (fun a => a.percentComplete))) := by
  constructor
  · intro scope drawingId actionId currentAction tempImage now out ds' hcid hsave hout
    cases hd : scope.drawings with
    | none =>
      rw [handleSaveAction.eq_def, hd] at hsave
      exact absurd hsave (by simp)
    | some ds =>
      rw [handleSaveAction.eq_def, hd] at hsave
      simp only [Option.some.injEq] at hsave
      rw [← hsave] at hout
      simp only [Option.some.injEq] at hout
      subst hout
      intro d hd' hdid a ha haid
      obtain ⟨d₀, hd₀, rfl⟩ := List.mem_map.mp hd'
      by_cases h₀ : d₀.id = drawingId
      · rw [if_pos h₀] at ha
        obtain ⟨a₀, ha₀, rfl⟩ := List.mem_map.mp ha
        by_cases ha₀id : a₀.id = actionId
        · rw [if_pos ha₀id]
          exact ⟨rfl, rfl⟩
        · rw [if_neg ha₀id] at haid
          exact absurd haid ha₀id
      · rw [if_neg h₀] at hdid
        exact absurd hdid h₀
  · intro scope out drawingId actionId now ds ds' hd htog hout
    rw [toggleAbatementAction.eq_def, hd] at htog
    simp only [Option.some.injEq] at htog
    rw [← htog] at hout
    simp only [Option.some.injEq] at hout
    subst hout
    rw [List.map_map]
    apply List.map_congr_left
    intro d _
    simp only [Function.comp_apply]
    by_cases h₀ : d.id = drawingId
    · rw [if_pos h₀]
      simp only
      rw [List.map_map]
      apply List.map_congr_left
      intro a _
      simp only [Function.comp_apply]
      by_cases ha : a.id = actionId
      · rw [if_pos ha]
      · rw [if_neg ha]
    · rw [if_neg h₀]

/-- The action as the modal saves it for `staleDrawing`'s action with its
step completed: `percentComplete` recomputed to 100. -/
def savedActionC4 : Action := ⟨2, "act", 100, "", [⟨10, "x", true⟩], none, some 5⟩

/-- The edited modal state for `savedActionC4`: step completed, stale
`percentComplete` still 0 before saving. -/
def currentActionC4 : Action := ⟨2, "act", 0, "", [⟨10, "x", true⟩], none, none⟩

/-- The drawing as written by the modal save. -/
def savedDrawingC4 : Drawing := ⟨1, "d", "", "", some "scope_y", [savedActionC4]⟩

/-- Witness for `c4_write_paths_derived_fields`: saving the edited action
on the concrete scope document writes `percentComplete = 100 =
calculatePercentFromSteps` of its persisted steps. -/
theorem c4_witness :
    savedActionC4.percentComplete = calculatePercentFromSteps (some savedActionC4.steps) ∧
    savedActionC4.steps = currentActionC4.steps := by
  exact c4_write_paths_derived_fields.1 staleScope 1 2 currentActionC4 none 5
    { staleScope with drawings := some [savedDrawingC4] } [savedDrawingC4]
    rfl (by decide) rfl savedDrawingC4 (by decide) rfl savedActionC4 (by decide) rfl

/-- **C8** (counterexample): the Lead Abatement document seeded on first
run carries the materials checklist (3 steps) and the general-prereqs
checklist (2 steps) — its prerequisite section is not empty, refuting the
claim at the concrete seed `randPart = 0`, `u = 0`. -/
theorem c8_counterexample :
    (lookupScope (initializeScopes 0 0) LEAD_ABATEMENT_ID).map (fun doc =>
      (doc.prereqs.materials.steps.length, doc.prereqs.generalPrereqs.steps.length))
      = some (3, 2) ∧
    (some ((3 : ℕ), (2 : ℕ)) ≠ some (0, 0)) := by
  decide

/-- **C8** (amended): first-run initialization seeds exactly one document
per title of the fixed eight-name catalog, keyed by the slugified title;
but every scope — Lead Abatement included — receives the same default
prerequisite structure: the two step-tracked prerequisites with their
fixed checklists (materials: 3 fixed steps, generalPrereqs: 2 fixed
steps, all incomplete, status "Not Started").  Lead Abatement's document
differs only in the `leadAbatement` prerequisite's status ("In Progress"
for titles containing "Lead", "Not Started" otherwise); its prerequisite
section exists in the document and is merely not rendered on its page. -/
theorem c8_seeding_catalog_and_prereqs (randPart u : Nat) :
    (initializeScopes randPart u).map Prod.fst = SCOPE_NAMES.map jsSlugify ∧
    (initializeScopes randPart u).all (fun p =>
      p.2.id == jsSlugify p.2.title &&
      p.2.prereqs.materials.status == "Not Started" &&
      (p.2.prereqs.materials.steps.map (fun s => s.description)) ==
        ["Issue Material Request (MR)", "Confirm long-lead items delivery date",
         "Verify materials received against bill of materials"] &&
      p.2.prereqs.materials.steps.all (fun s => s.isComplete == false) &&
      p.2.prereqs.generalPrereqs.status == "Not Started" &&
      (p.2.prereqs.generalPrereqs.steps.map (fun s => s.description)) ==
        ["Obtain Area Access Permit (AAP)", "Complete Job Hazard Analysis (JHA)"] &&
      p.2.prereqs.generalPrereqs.steps.all (fun s => s.isComplete == false) &&
      p.2.prereqs.leadAbatement.steps.isEmpty &&
      p.2.prereqs.leadAbatement.status ==
        (if jsIncludes p.2.title "Lead" = true then "In Progress" else "Not Started")) = true ∧
    (initializeScopes randPart u).length = 8 := by
  refine ⟨?_, ?_, ?_⟩ <;>
    simp [initializeScopes, SCOPE_NAMES, createDefaultScopeData, List.enum, List.enumFrom]

end TMods
